import Mathlib

/-!
User-analytics task generator and grader (`src/q-24f2004489.js`).

A shallow embedding of the default export of `q-24f2004489.js`: the two sampled
parameters, the rendered brief, and the `validate` closure that posts a fixed
four-record fixture to the submitted service and compares five fields of the answer
with values it computes locally.

Conventions of the embedding.

* A JavaScript number is a binary64 value (`JsNum`): `NaN`, an infinity, or a finite
  double given by its exact rational value. The subtraction of line 67 and the literal
  `0.1` are rounded to the nearest double, ties to even (`roundDouble`). The numbers the
  grader itself computes are small integers and `105 / 4`, all of them doubles, so that
  these computations are exact.
* A record's `age` is an integer, as in the fixture.
* The network is a function from the request to the outcome of `fetch`; `validate`
  returns the list of requests it issued together with its outcome.
* The host's numeric coercion of strings and of objects (arrays included) is not part of
  this file; it is a parameter (`Coerce`).
-/

set_option autoImplicit false

namespace UserAnalytics

/-! ## Data model -/

/-- One element of `testData.users`. -/
structure User where
  name : String
  age : Int
  email : String
  country : String
  deriving Repr, DecidableEq

/-- Embeds `String.prototype.includes` on character lists: `needle` occurs in `hay`. -/
def includesChars (needle : List Char) : List Char → Bool
  | [] => needle.isEmpty
  | c :: cs => needle.isPrefixOf (c :: cs) || includesChars needle cs

/-- Embeds `s.includes(sub)`. -/
def includes (s sub : String) : Bool :=
  includesChars sub.data s.data

/-- Embeds `Array.prototype.reduce` without an initial value: `none` stands for the `TypeError`
raised on an empty array; otherwise the accumulator starts at the first element and the
callback is applied to the remaining elements from left to right. -/
def reduce1 {α : Type} (f : α → α → α) : List α → Option α
  | [] => none
  | x :: xs => some (xs.foldl f x)

/-! ## Expected values (lines 33-48) -/

/-- Embeds `testData.users`, with Charlie's country taken from the sampled `targetCountry`. -/
def testData (targetCountry : String) : List User :=
  [ { name := "Alice", age := 20, email := "alice@example.com", country := "India" },
    { name := "Bob", age := 15, email := "bob_gmail", country := "USA" },
    { name := "Charlie", age := 30, email := "charlie@example.com", country := targetCountry },
    { name := "Dave", age := 40, email := "dave@example.com", country := "UK" } ]

/-- Embeds `users.filter(u => u.email.includes("@")).length`. -/
def validEmailsOf (users : List User) : Nat :=
  (users.filter (fun u => includes u.email "@")).length

/-- Embeds `users.reduce((sum, u) => sum + u.age, 0)`. -/
def totalAgeOf (users : List User) : Int :=
  users.foldl (fun sum u => sum + u.age) 0

/-- Embeds `totalAge / users.length`, as an exact rational. -/
def avgAgeOf (users : List User) : ℚ :=
  (totalAgeOf users : ℚ) / (users.length : ℚ)

/-- Embeds `users.filter(u => u.country === targetCountry).length`. -/
def targetCountOf (targetCountry : String) (users : List User) : Nat :=
  (users.filter (fun u => u.country == targetCountry)).length

/-- The callback of the oldest-user scan: `(prev.age > curr.age) ? prev : curr`. -/
def older (prev curr : User) : User :=
  if prev.age > curr.age then prev else curr

/-- Embeds `users.reduce((prev, curr) => (prev.age > curr.age) ? prev : curr)`. -/
def oldestOf (users : List User) : Option User :=
  reduce1 older users

/-- Embeds `users.reduce(...).name`. -/
def oldestNameOf (users : List User) : Option String :=
  (oldestOf users).map (fun u => u.name)

/-- Embeds `users.filter(u => u.age >= minAge).length`. -/
def adultsOf (minAge : Int) (users : List User) : Nat :=
  (users.filter (fun u => decide (u.age ≥ minAge))).length

/-- Embeds `validEmails` as computed inside `validate`. -/
def validEmails (targetCountry : String) : Nat :=
  validEmailsOf (testData targetCountry)

/-- Embeds `avgAge` as computed inside `validate`. -/
def avgAge (targetCountry : String) : ℚ :=
  avgAgeOf (testData targetCountry)

/-- Embeds `targetCount` as computed inside `validate`. -/
def targetCount (targetCountry : String) : Nat :=
  targetCountOf targetCountry (testData targetCountry)

/-- Embeds `oldest` as computed inside `validate`. -/
def oldest (targetCountry : String) : Option String :=
  oldestNameOf (testData targetCountry)

/-- Embeds `adults` as computed inside `validate`. -/
def adults (minAge : Int) (targetCountry : String) : Nat :=
  adultsOf minAge (testData targetCountry)

/-- The options handed to `gen.choice` on line 10. -/
def countries : List String := ["India", "USA", "UK", "Canada"]

/-! ## JavaScript values and the operators used by the five checks -/

/-- A value read out of the parsed response body. `undefined` is what reading an absent
property gives; the other constructors are the JSON value kinds. An object is its list of
members in document order. A number is the finite double that the parser made of the
numeric text, given by its exact value. -/
inductive JsVal where
  | undefined
  | null
  | bool (b : Bool)
  | num (q : ℚ)
  | str (s : String)
  | arr (items : List JsVal)
  | obj (members : List (String × JsVal))

/-- A JavaScript number: `NaN`, an infinity with its sign, or a finite double given by its
exact value. -/
inductive JsNum where
  | nan
  | inf (negative : Bool)
  | fin (q : ℚ)
  deriving DecidableEq

/-- Rounding to the nearest integer, a tie going to the even neighbour. -/
def roundHalfEven (t : ℚ) : Int :=
  if t - ⌊t⌋ < 1 / 2 then ⌊t⌋
  else if 1 / 2 < t - ⌊t⌋ then ⌊t⌋ + 1
  else if ⌊t⌋ % 2 = 0 then ⌊t⌋ else ⌊t⌋ + 1

/-- The exponent of the unit in the last place of the doubles around `q`: 52 below the
binary exponent of `q`, and `-1074` throughout the subnormal range. -/
def ulpExp (q : ℚ) : Int :=
  max (Int.log 2 |q|) (-1022) - 52

/-- The binary64 value of an exact result `q`: the nearest multiple of the unit in the
last place, ties to even, and an infinity once that reaches `2 ^ 1024`. -/
def roundDouble (q : ℚ) : JsNum :=
  let r : ℚ := roundHalfEven (|q| / 2 ^ ulpExp q) * 2 ^ ulpExp q
  if 2 ^ 1024 ≤ r then .inf (decide (q < 0)) else .fin (if q < 0 then -r else r)

/-- Binary `-` on numbers: the exact difference of two finite doubles is rounded. -/
def JsNum.sub : JsNum → JsNum → JsNum
  | .fin a, .fin b => roundDouble (a - b)
  | .fin _, .inf n => .inf (!n)
  | .inf n, .fin _ => .inf n
  | .inf n, .inf m => if n = m then .nan else .inf n
  | _, _ => .nan

/-- Embeds `Math.abs`. -/
def JsNum.abs : JsNum → JsNum
  | .fin a => .fin |a|
  | .inf _ => .inf false
  | .nan => .nan

/-- The relational `>` on numbers; any comparison with `NaN` is false. -/
def JsNum.gt (x y : JsNum) : Bool :=
  match x with
  | .nan => false
  | .inf true => false
  | .inf false =>
    match y with
    | .nan => false
    | .inf false => false
    | _ => true
  | .fin a =>
    match y with
    | .fin b => decide (a > b)
    | .inf true => true
    | _ => false

/-- What the host does to a string or an object (arrays included) used as an operand of
`-`: `none` stands for the `TypeError` of an object that has no primitive value. -/
abbrev Coerce := JsVal → Option JsNum

/-- Embeds `ToNumber` as applied to the left operand of `json.average_age - avgAge`. -/
def toNumber (coerce : Coerce) : JsVal → Option JsNum
  | .undefined => some .nan
  | .null => some (.fin 0)
  | .bool true => some (.fin 1)
  | .bool false => some (.fin 0)
  | .num q => some (.fin q)
  | v => coerce v

/-- Member lookup in a parsed object: the last of several members with the same key is
the one the parser keeps. -/
def lookupMember (name : String) : List (String × JsVal) → Option JsVal
  | [] => none
  | (k, v) :: rest =>
    match lookupMember name rest with
    | some w => some w
    | none => if k == name then some v else none

/-- The property read `json.name` for one of the five field names: `none` stands for the
`TypeError` of reading a property of `null` or `undefined`; an absent property reads as
`undefined`. -/
def getProp (json : JsVal) (name : String) : Option JsVal :=
  match json with
  | .undefined => none
  | .null => none
  | .obj members => some ((lookupMember name members).getD .undefined)
  | _ => some .undefined

/-- Embeds `v !== n` for a number `n`. -/
def strictNeNum (v : JsVal) (n : ℚ) : Bool :=
  match v with
  | .num q => decide (q ≠ n)
  | _ => true

/-- Embeds `v !== s` for a string `s`. -/
def strictNeStr (v : JsVal) (s : String) : Bool :=
  match v with
  | .str t => decide (t ≠ s)
  | _ => true

/-! ## Requests, responses and outcomes -/

/-- The arguments of the single `fetch` call. -/
structure Request where
  endpoint : String
  method : String
  headers : List (String × String)
  body : List User
  deriving Repr, DecidableEq

/-- The part of a response that `validate` looks at: `json` is the result of
`response.json()`, `none` when that promise rejects. -/
structure Response where
  status : Nat
  json : Option JsVal

/-- Outcome of `fetch`: rejected with an error carrying `message`, or a response. -/
inductive FetchResult where
  | rejected (message : String)
  | resolved (response : Response)

/-- The network as seen from `validate`. -/
abbrev Net := Request → FetchResult

/-- How `validate` can fail. -/
inductive Failure where
  | error (message : String)
  | typeError
  | jsonRejected
  deriving Repr, DecidableEq

/-- What a call of `validate` did: the requests it issued, in order, and how it ended
(`.ok true` for `return true`). -/
structure Run where
  requests : List Request
  outcome : Except Failure Bool

/-! ## `validate` (lines 28-74) -/

/-- Embeds `url.replace(/\/$/, "")`. -/
def cleanUrl (url : String) : String :=
  if url.data.getLast? = some '/' then String.mk url.data.dropLast else url

/-- The endpoint of line 30. -/
def endpoint (url : String) : String :=
  cleanUrl url ++ "/analyze_users"

/-- The request of lines 52-56. -/
def mkRequest (targetCountry url : String) : Request :=
  { endpoint := endpoint url
    method := "POST"
    headers := [("Content-Type", "application/json")]
    body := testData targetCountry }

/-- The label pushed by the check of line 66. -/
def labelQ1 : String := "Q1 Failed: Email count"
/-- The label pushed by the check of line 67. -/
def labelQ2 : String := "Q2 Failed: Avg Age"
/-- The label pushed by the check of line 68. -/
def labelQ3 : String := "Q3 Failed: Country count"
/-- The label pushed by the check of line 69. -/
def labelQ4 : String := "Q4 Failed: Oldest user"
/-- The label pushed by the check of line 70. -/
def labelQ5 : String := "Q5 Failed: Adults count"

/-- The condition of line 67, `Math.abs(x - avgAge) > 0.1`, on the number `x` that
`json.average_age` converts to; the literal `0.1` stands for the double nearest to one
tenth. -/
def exceedsTolerance (x : JsNum) (avgAge : ℚ) : Bool :=
  ((x.sub (.fin avgAge)).abs).gt (roundDouble (1 / 10))

/-- Embeds `errs.push(label)` under the condition `c`. -/
def pushIf (c : Bool) (label : String) (errs : List String) : List String :=
  if c then errs ++ [label] else errs

/-- Lines 63-73: the five checks on the parsed body and the final verdict. -/
def runChecks (coerce : Coerce) (validEmails : Nat) (avgAge : ℚ) (targetCount : Nat)
    (oldest : String) (adults : Nat) (json : JsVal) : Except Failure Bool := do
  let errs : List String := []
  let some v1 := getProp json "valid_email_count" | throw Failure.typeError
  let errs := pushIf (strictNeNum v1 validEmails) labelQ1 errs
  let some v2 := getProp json "average_age" | throw Failure.typeError
  let some n2 := toNumber coerce v2 | throw Failure.typeError
  let errs := pushIf (exceedsTolerance n2 avgAge) labelQ2 errs
  let some v3 := getProp json "target_country_count" | throw Failure.typeError
  let errs := pushIf (strictNeNum v3 targetCount) labelQ3 errs
  let some v4 := getProp json "oldest_user" | throw Failure.typeError
  let errs := pushIf (strictNeStr v4 oldest) labelQ4 errs
  let some v5 := getProp json "adults_count" | throw Failure.typeError
  let errs := pushIf (strictNeNum v5 adults) labelQ5 errs
  if errs.length > 0 then throw (Failure.error (String.intercalate ", " errs))
  return true

/-- Lines 61-73: what happens once `fetch` has resolved. -/
def afterFetch (coerce : Coerce) (validEmails : Nat) (avgAge : ℚ) (targetCount : Nat)
    (oldest : String) (adults : Nat) (response : Response) : Except Failure Bool :=
  if response.status ≠ 200 then
    throw (Failure.error ("Expected 200 OK, got " ++ toString response.status))
  else
    match response.json with
    | none => throw Failure.jsonRejected
    | some json => runChecks coerce validEmails avgAge targetCount oldest adults json

/-- The closure `validate(url)` for the sampled `minAge` and `targetCountry`. -/
def validate (coerce : Coerce) (minAge : Int) (targetCountry : String) (net : Net)
    (url : String) : Run :=
  match oldest targetCountry with
  | none => { requests := [], outcome := throw Failure.typeError }
  | some oldestName =>
    let request := mkRequest targetCountry url
    match net request with
    | .rejected message =>
      { requests := [request]
        outcome := throw (Failure.error ("Connection failed: " ++ message)) }
    | .resolved response =>
      { requests := [request]
        outcome := afterFetch coerce (validEmails targetCountry) (avgAge targetCountry)
          (targetCount targetCountry) oldestName (adults minAge targetCountry) response }

/-! ## The generator (lines 5-26, 76-80) -/

/-- White space and line terminators, the characters `String.prototype.trim` removes. -/
def isTrimChar (c : Char) : Bool :=
  let n := c.toNat
  (9 ≤ n && n ≤ 13) || n == 32 || n == 0xA0 || n == 0x1680 || (0x2000 ≤ n && n ≤ 0x200A)
    || n == 0x2028 || n == 0x2029 || n == 0x202F || n == 0x205F || n == 0x3000 || n == 0xFEFF

/-- Embeds `String.prototype.trim` on character lists. -/
def trimChars (cs : List Char) : List Char :=
  ((cs.dropWhile isTrimChar).reverse.dropWhile isTrimChar).reverse

/-- Embeds `s.trim()`. -/
def trim (s : String) : String :=
  String.mk (trimChars s.data)

/-- The template literal of lines 12-26 up to the first interpolation. -/
def briefHead : String :=
  "\n**Task: Build a User Analytics API**\n\nCreate a FastAPI endpoint \x60/analyze_users\x60 that accepts a POST request with:\n\x60\x7b \"users\": [ \x7b\"name\": \"...\", \"age\": int, \"email\": \"...\", \"country\": \"...\"\x7d ] \x7d\x60\n\nReturn a JSON object with exactly these **5 calculated fields**:\n1. \x60valid_email_count\x60: Count of emails containing \x27@\x27.\n2. \x60average_age\x60: Average age of users (float).\n3. \x60target_country_count\x60: Count of users from \""

/-- The template literal between the two interpolations. -/
def briefMid : String :=
  "\".\n4. \x60oldest_user\x60: The \x27name\x27 of the user with the highest age.\n5. \x60adults_count\x60: Count of users with age >= "

/-- The template literal after the second interpolation. -/
def briefTail : String :=
  ".\n\nHost this API and submit the base URL.\n  "

/-- The constant `brief` of lines 12-26. -/
def brief (minAge : Int) (targetCountry : String) : String :=
  trim (briefHead ++ targetCountry ++ briefMid ++ toString minAge ++ briefTail)

/-- The interface of `Gen` (from `./utils.js`) that the generator uses, over the state
`σ` of the wrapped random source: each draw returns its value and the next state. -/
structure Gen (σ : Type) where
  int : Int → Int → σ → Int × σ
  choice : List String → σ → String × σ

/-- The record the default export returns. -/
structure Task where
  title : String
  brief : String
  validate : Net → String → Run

/-- Embeds `minAge` as sampled on line 9. -/
def sampledMinAge {σ : Type} (gen : Gen σ) (rng : σ) : Int :=
  (gen.int 18 25 rng).1

/-- Embeds `targetCountry` as sampled on line 10, after the draw of line 9. -/
def sampledTargetCountry {σ : Type} (gen : Gen σ) (rng : σ) : String :=
  (gen.choice countries (gen.int 18 25 rng).2).1

/-- The default export. -/
def generate {σ : Type} (coerce : Coerce) (gen : Gen σ) (rng : σ) : Task :=
  let minAge := sampledMinAge gen rng
  let targetCountry := sampledTargetCountry gen rng
  { title := "FastAPI User Analytics (5 Checks)"
    brief := brief minAge targetCountry
    validate := validate coerce minAge targetCountry }

/-! ## Reference definitions and sample inputs -/

/-- Following the words of the specification: the name of the first record, in sequence
order, whose age is the maximum of all ages. -/
def firstOldestNameOf (users : List User) : Option String :=
  (users.find? (fun u => users.all (fun v => decide (v.age ≤ u.age)))).map (fun u => u.name)

/-- Two records of equal age. -/
def tiedUsers : List User :=
  [ { name := "Ann", age := 10, email := "ann@example.com", country := "UK" },
    { name := "Ben", age := 10, email := "ben@example.com", country := "UK" } ]

/-- The labels of the checks that disagree (`d1` .. `d5` say whether the checks Q1 .. Q5
disagree), each once, in the order Q1 .. Q5. -/
def failedLabels (d1 d2 d3 d4 d5 : Bool) : List String :=
  ([(d1, labelQ1), (d2, labelQ2), (d3, labelQ3), (d4, labelQ4), (d5, labelQ5)].filter
    (fun p => p.1)).map (fun p => p.2)

/-- Success when no label was collected, otherwise one error whose message is the labels
joined by `", "`. -/
def verdict (failed : List String) : Except Failure Bool :=
  if failed = [] then .ok true else .error (.error (String.intercalate ", " failed))

/-- A service that answers every request with the same response. -/
def answering (response : Response) : Net :=
  fun _ => .resolved response

/-- A service that cannot be reached: `fetch` rejects with `message`. -/
def unreachable (message : String) : Net :=
  fun _ => .rejected message

/-- A host coercion that turns every string and object into `NaN`. -/
def coerceNaN : Coerce :=
  fun _ => some .nan

/-- The right answer for `minAge = 18`, `targetCountry = "USA"`, with `average_age`
left out. -/
def bodyWithoutAverage : JsVal :=
  .obj [("valid_email_count", .num 3), ("target_country_count", .num 2),
    ("oldest_user", .str "Dave"), ("adults_count", .num 3)]

/-- An answer for `minAge = 18`, `targetCountry = "USA"` that is wrong in `oldest_user`
and in `adults_count` only. -/
def bodyWrongQ4Q5 : JsVal :=
  .obj [("valid_email_count", .num 3), ("average_age", .num (105 / 4)),
    ("target_country_count", .num 2), ("oldest_user", .str "Alice"),
    ("adults_count", .num 4)]

/-- The double that the numeric text `26.3` parses to. -/
def double263 : ℚ := 7402791887490253 / 281474976710656

/-- The double that the numeric text `26.4` parses to. -/
def double264 : ℚ := 3715469692580659 / 140737488355328

/-- The double that the numeric text `26.35` parses to. -/
def double2635 : ℚ := 3708432818162893 / 140737488355328

/-- The right answer for `minAge = 18`, `targetCountry = "USA"`, except for the
`average_age` given. -/
def bodyWithAverage (a : ℚ) : JsVal :=
  .obj [("valid_email_count", .num 3), ("average_age", .num a),
    ("target_country_count", .num 2), ("oldest_user", .str "Dave"),
    ("adults_count", .num 3)]

/-- An answer for `minAge = 18`, `targetCountry = "USA"` that is right except for an
`average_age` written `26.4`. -/
def bodyAverage264 : JsVal :=
  bodyWithAverage double264

/-- An answer for `minAge = 18`, `targetCountry = "USA"` that is right except for an
`average_age` written `26.35`. -/
def bodyAverage2635 : JsVal :=
  bodyWithAverage double2635

/-- Following the table of section 6: count of users whose email contains `"@"`. -/
def specValidEmailCount (users : List User) : Nat :=
  users.countP (fun u => decide ('@' ∈ u.email.data))

/-- Following the table of section 6: mean of all users' ages. -/
def specAverageAge (users : List User) : ℚ :=
  (users.map (fun u => (u.age : ℚ))).sum / (users.length : ℚ)

/-- Following the table of section 6: count of users whose country equals the target
country. -/
def specTargetCountryCount (targetCountry : String) (users : List User) : Nat :=
  users.countP (fun u => decide (u.country = targetCountry))

/-- Following the table of section 6: count of users with age at least the minimum age. -/
def specAdultsCount (minAge : Int) (users : List User) : Nat :=
  users.countP (fun u => decide (minAge ≤ u.age))

/-- The answer of a service that follows the table of section 6 on the posted users (the
name of the user with the maximum age being the first one on a tie, `null` when there is
no user). -/
def referenceBody (minAge : Int) (targetCountry : String) (users : List User) : JsVal :=
  .obj [("valid_email_count", .num (specValidEmailCount users)),
    ("average_age", .num (specAverageAge users)),
    ("target_country_count", .num (specTargetCountryCount targetCountry users)),
    ("oldest_user", match firstOldestNameOf users with
      | some name => .str name
      | none => .null),
    ("adults_count", .num (specAdultsCount minAge users))]

/-- A service that answers HTTP 200 with `referenceBody` of the users it was posted. -/
def referenceService (minAge : Int) (targetCountry : String) : Net :=
  fun request => .resolved ⟨200, some (referenceBody minAge targetCountry request.body)⟩

/-- The five labels, in the order of the checks. -/
def allLabels : List String :=
  [labelQ1, labelQ2, labelQ3, labelQ4, labelQ5]

/-- The line of the brief that names the target country. -/
def countryLine (targetCountry : String) : String :=
  "Count of users from \"" ++ targetCountry ++ "\""

/-- The line of the brief that names the minimum age. -/
def adultsLine (minAge : Int) : String :=
  "Count of users with age >= " ++ toString minAge

/-- A random source that always draws its lower bound and its first option. -/
def firstGen : Gen Unit :=
  { int := fun lo _ s => (lo, s)
    choice := fun options s => (options.headD "", s) }

/-- The five property names that `validate` reads from the parsed body. -/
def fieldNames : List String :=
  ["valid_email_count", "average_age", "target_country_count", "oldest_user", "adults_count"]

/-- The answer `bodyWrongQ4Q5` with two more members, one of them an object. -/
def bodyWrongQ4Q5Extra : JsVal :=
  .obj [("debug", .bool true), ("valid_email_count", .num 3), ("average_age", .num (105 / 4)),
    ("target_country_count", .num 2), ("oldest_user", .str "Alice"),
    ("users", .obj [("adults_count", .num 3)]), ("adults_count", .num 4)]

/-! ## Lemmas -/

/-! ### Double arithmetic -/

/-- An integer rounds to itself. -/
theorem roundHalfEven_intCast (n : Int) : roundHalfEven (n : ℚ) = n := by
  simp [roundHalfEven]

/-- Rounding does not go below an integer that the argument is not below. -/
theorem le_roundHalfEven (t : ℚ) (m : Int) (h : (m : ℚ) ≤ t) : m ≤ roundHalfEven t := by
  have hfloor : m ≤ ⌊t⌋ := Int.le_floor.mpr h
  unfold roundHalfEven
  split_ifs <;> omega

/-- A number strictly nearer than one half to an integer rounds to that integer. -/
theorem roundHalfEven_eq_of_near (t : ℚ) (n : Int) (h : |t - n| < 1 / 2) :
    roundHalfEven t = n := by
  rw [abs_lt] at h
  obtain ⟨h1, h2⟩ := h
  by_cases hle : (n : ℚ) ≤ t
  · have hfloor : ⌊t⌋ = n := by
      rw [Int.floor_eq_iff]
      exact ⟨hle, by linarith⟩
    unfold roundHalfEven
    rw [hfloor, if_pos (by linarith)]
  · have hfloor : ⌊t⌋ = n - 1 := by
      rw [Int.floor_eq_iff]
      push_cast
      exact ⟨by linarith, by linarith⟩
    unfold roundHalfEven
    rw [hfloor, if_neg (by push_cast; linarith), if_pos (by push_cast; linarith)]
    omega

/-- The unit in the last place of a non-zero number below `2 ^ j`. -/
theorem ulpExp_le (q : ℚ) (j : Int) (h0 : q ≠ 0) (hq : |q| < 2 ^ j) (hj : -1022 < j) :
    ulpExp q ≤ j - 53 := by
  have hlog : Int.log 2 |q| < j :=
    (Int.lt_zpow_iff_log_lt (by norm_num) (abs_pos.mpr h0)).mp (by exact_mod_cast hq)
  unfold ulpExp
  omega

/-- The unit in the last place of a number of magnitude at least `2 ^ j`. -/
theorem le_ulpExp (q : ℚ) (j : Int) (hq : 2 ^ j ≤ |q|) : j - 52 ≤ ulpExp q := by
  have h0 : 0 < |q| := lt_of_lt_of_le (by positivity) hq
  have hlog : j ≤ Int.log 2 |q| :=
    (Int.zpow_le_iff_le_log (by norm_num) h0).mp (by exact_mod_cast hq)
  unfold ulpExp
  omega


/-- Zero is a double. -/
theorem roundDouble_zero : roundDouble 0 = .fin 0 := by
  simp [roundDouble, roundHalfEven]

/-- A multiple of its own unit in the last place, below the overflow threshold, rounds to
itself. -/
theorem roundDouble_exact (k e : Int) (hu : ulpExp (k * 2 ^ e) ≤ e)
    (hfin : |(k : ℚ) * 2 ^ e| < 2 ^ 1024) :
    roundDouble (k * 2 ^ e) = .fin (k * 2 ^ e) := by
  set x : ℚ := k * 2 ^ e with hx
  set u := ulpExp x with hudef
  obtain ⟨d, hd⟩ : ∃ d : ℕ, e - u = d := ⟨(e - u).toNat, by omega⟩
  have hquot : |x| / 2 ^ u = ((|k| * 2 ^ d : Int) : ℚ) := by
    have he : e = u + d := by omega
    rw [hx, abs_mul, abs_of_pos (show (0 : ℚ) < 2 ^ e by positivity), he,
      zpow_add₀ (by norm_num : (2 : ℚ) ≠ 0)]
    push_cast
    field_simp
    ring
  have hr : ((roundHalfEven (|x| / 2 ^ u) : Int) : ℚ) * 2 ^ u = |x| := by
    rw [hquot, roundHalfEven_intCast, ← hquot]
    field_simp
  unfold roundDouble
  simp only [← hudef, hr]
  rw [if_neg (not_le.mpr hfin)]
  congr 1
  split_ifs with hneg
  · rw [abs_of_neg hneg, neg_neg]
  · rw [abs_of_nonneg (not_lt.mp hneg)]

/-- A finite double is an integer multiple of its unit in the last place. -/
theorem exists_mantissa (a : ℚ) (ha : roundDouble a = .fin a) :
    ∃ k : Int, a = k * 2 ^ ulpExp a := by
  unfold roundDouble at ha
  simp only at ha
  split_ifs at ha with hover hneg
  · refine ⟨-roundHalfEven (|a| / 2 ^ ulpExp a), ?_⟩
    have := JsNum.fin.inj ha
    push_cast
    linarith
  · exact ⟨roundHalfEven (|a| / 2 ^ ulpExp a), (JsNum.fin.inj ha).symm⟩

/-- Rounding a number of magnitude at least `2 ^ j` (in the normal range) gives a number
of magnitude at least `2 ^ j`, or an infinity. -/
theorem roundDouble_large (y : ℚ) (j : Int) (hj : -1022 ≤ j) (hy : 2 ^ j ≤ |y|) :
    (∃ n, roundDouble y = .inf n) ∨ ∃ r, roundDouble y = .fin r ∧ 2 ^ j ≤ |r| := by
  have h0 : 0 < |y| := lt_of_lt_of_le (by positivity) hy
  have hlog : j ≤ Int.log 2 |y| :=
    (Int.zpow_le_iff_le_log (by norm_num) h0).mp (by exact_mod_cast hy)
  have hu : ulpExp y = Int.log 2 |y| - 52 := by unfold ulpExp; omega
  have hpow : (2 : ℚ) ^ Int.log 2 |y| ≤ |y| := by
    exact_mod_cast Int.zpow_log_le_self (b := 2) (by norm_num) h0
  have hm : (2 ^ 52 : Int) ≤ roundHalfEven (|y| / 2 ^ ulpExp y) := by
    apply le_roundHalfEven
    rw [le_div_iff₀ (by positivity), hu]
    push_cast
    calc (2 : ℚ) ^ 52 * 2 ^ (Int.log 2 |y| - 52)
        = 2 ^ Int.log 2 |y| := by
          rw [zpow_sub₀ (by norm_num : (2 : ℚ) ≠ 0)]
          field_simp
          ring
      _ ≤ |y| := hpow
  have hr : (2 : ℚ) ^ j ≤ roundHalfEven (|y| / 2 ^ ulpExp y) * 2 ^ ulpExp y := by
    have hcast : ((2 ^ 52 : Int) : ℚ) ≤ (roundHalfEven (|y| / 2 ^ ulpExp y) : ℚ) := by
      exact_mod_cast hm
    calc (2 : ℚ) ^ j ≤ 2 ^ Int.log 2 |y| := zpow_le_zpow_right₀ (by norm_num) hlog
      _ = ((2 ^ 52 : Int) : ℚ) * 2 ^ ulpExp y := by
          rw [hu, zpow_sub₀ (by norm_num : (2 : ℚ) ≠ 0)]
          push_cast
          field_simp
          ring
      _ ≤ roundHalfEven (|y| / 2 ^ ulpExp y) * 2 ^ ulpExp y :=
          mul_le_mul_of_nonneg_right hcast (by positivity)
  unfold roundDouble
  simp only
  split_ifs with hover hneg
  · exact Or.inl ⟨_, rfl⟩
  · exact Or.inr ⟨_, rfl, by rw [abs_neg]; exact le_trans hr (le_abs_self _)⟩
  · exact Or.inr ⟨_, rfl, le_trans hr (le_abs_self _)⟩


/-- The value of a positive number in the normal range whose scaled value is not a tie. -/
theorem roundDouble_eq_of_near (q : ℚ) (L n : Int) (hq : 0 < q) (hL : -1022 ≤ L)
    (h1 : 2 ^ L ≤ q) (h2 : q < 2 ^ (L + 1)) (hn : |q / 2 ^ (L - 52) - n| < 1 / 2)
    (hfin : (n : ℚ) * 2 ^ (L - 52) < 2 ^ 1024) :
    roundDouble q = .fin (n * 2 ^ (L - 52)) := by
  have habs : |q| = q := abs_of_pos hq
  have hlog : Int.log 2 |q| = L := by
    rw [habs]
    apply le_antisymm
    · have := (Int.lt_zpow_iff_log_lt (b := 2) (by norm_num) hq).mp (by exact_mod_cast h2)
      omega
    · exact (Int.zpow_le_iff_le_log (by norm_num) hq).mp (by exact_mod_cast h1)
  have hu : ulpExp q = L - 52 := by unfold ulpExp; omega
  unfold roundDouble
  simp only [hu, habs, roundHalfEven_eq_of_near _ n hn]
  rw [if_neg (not_le.mpr hfin), if_neg (not_lt.mpr hq.le)]

/-- The literal `0.1` as a double. -/
theorem roundDouble_tenth :
    roundDouble (1 / 10) = .fin (3602879701896397 / 36028797018963968) := by
  rw [roundDouble_eq_of_near (1 / 10) (-4) 7205759403792794 (by norm_num) (by norm_num)
    (by norm_num) (by norm_num) (by norm_num [abs_lt]) (by norm_num)]
  norm_num

/-- No multiple of `2 ^ (-48)` lies between one tenth and the double nearest to it. -/
theorem tenth_gap (N : Int) :
    (3602879701896397 / 36028797018963968 : ℚ) < N * 2 ^ (-48 : Int) ↔
      (1 / 10 : ℚ) < N * 2 ^ (-48 : Int) := by
  have hpow : (2 : ℚ) ^ (-48 : Int) = 1 / 281474976710656 := by norm_num
  rw [hpow]
  by_cases h : 28147497671066 ≤ N
  · have hc : (28147497671066 : ℚ) ≤ N := by exact_mod_cast h
    constructor <;> intro _ <;> linarith
  · have hc : (N : ℚ) ≤ 28147497671065 := by
      have : N ≤ 28147497671065 := by omega
      exact_mod_cast this
    constructor <;> intro hlt <;> linarith

/-- For a finite double `a`, the test of line 67 against the mean `105 / 4`, carried out
in double arithmetic, agrees with the exact comparison of `|a - 105 / 4|` with
one tenth. -/
theorem exceedsTolerance_iff (a : ℚ) (ha : roundDouble a = .fin a) :
    exceedsTolerance (.fin a) (105 / 4) = true ↔ 1 / 10 < |a - 105 / 4| := by
  unfold exceedsTolerance
  rw [roundDouble_tenth]
  simp only [JsNum.sub]
  by_cases hbig : 1 / 8 ≤ |a - 105 / 4|
  · have hrhs : (1 / 10 : ℚ) < |a - 105 / 4| := by linarith
    rcases roundDouble_large (a - 105 / 4) (-3) (by norm_num) (by norm_num; linarith)
      with ⟨n, hn⟩ | ⟨r, hr, hrl⟩
    · rw [hn]
      exact ⟨fun _ => hrhs, fun _ => rfl⟩
    · rw [hr]
      have hr8 : (1 / 8 : ℚ) ≤ |r| := by norm_num at hrl; linarith
      have hlt : (3602879701896397 / 36028797018963968 : ℚ) < |r| := by linarith
      refine ⟨fun _ => hrhs, fun _ => ?_⟩
      simp only [JsNum.abs, JsNum.gt, gt_iff_lt, decide_eq_true_eq]
      exact hlt
  · have hsmall : |a - 105 / 4| < 1 / 8 := not_le.mp hbig
    have ha16 : (2 : ℚ) ^ (4 : Int) ≤ |a| := by
      have := (abs_lt.mp hsmall).1
      have h16 : (16 : ℚ) ≤ a := by linarith
      norm_num
      exact le_trans h16 (le_abs_self a)
    have hu : -48 ≤ ulpExp a := by
      have := le_ulpExp a 4 ha16
      omega
    obtain ⟨k, hk⟩ := exists_mantissa a ha
    obtain ⟨d, hd⟩ : ∃ d : ℕ, ulpExp a + 48 = d := ⟨(ulpExp a + 48).toNat, by omega⟩
    have hy : a - 105 / 4 = ((k * 2 ^ d - 105 * 2 ^ 46 : Int) : ℚ) * 2 ^ (-48 : Int) := by
      have hua : ulpExp a = d + -48 := by omega
      rw [hk, hua, zpow_add₀ (by norm_num : (2 : ℚ) ≠ 0)]
      push_cast
      norm_num
      ring
    have hexact : roundDouble (a - 105 / 4) = .fin (a - 105 / 4) := by
      rw [hy]
      apply roundDouble_exact
      · rw [← hy]
        by_cases h0 : a - 105 / 4 = 0
        · rw [h0]
          simp [ulpExp]
        · have := ulpExp_le (a - 105 / 4) (-3) h0 (by norm_num; linarith) (by norm_num)
          omega
      · rw [← hy]
        calc |a - 105 / 4| < 1 / 8 := hsmall
          _ < 2 ^ 1024 := by norm_num
    rw [hexact]
    have habs : |a - 105 / 4| =
        ((|k * 2 ^ d - 105 * 2 ^ 46| : Int) : ℚ) * 2 ^ (-48 : Int) := by
      rw [hy, abs_mul, abs_of_pos (show (0 : ℚ) < 2 ^ (-48 : Int) by positivity),
        Int.cast_abs]
    simp only [JsNum.abs, JsNum.gt, gt_iff_lt, decide_eq_true_eq]
    rw [habs]
    exact tenth_gap _


/-- The test of line 67 does not fire on the expected mean itself. -/
theorem exceedsTolerance_self (x : ℚ) : exceedsTolerance (.fin x) x = false := by
  unfold exceedsTolerance
  rw [roundDouble_tenth]
  simp only [JsNum.sub, sub_self, roundDouble_zero, JsNum.abs, JsNum.gt, abs_zero]
  norm_num

/-- The numeric text `26.3` as a double. -/
theorem roundDouble_26_3 : roundDouble 26.3 = .fin double263 := by
  rw [roundDouble_eq_of_near 26.3 4 7402791887490253 (by norm_num) (by norm_num)
    (by norm_num) (by norm_num) (by norm_num [abs_lt]) (by norm_num)]
  norm_num [double263]

/-- The numeric text `26.4` as a double. -/
theorem roundDouble_26_4 : roundDouble 26.4 = .fin double264 := by
  rw [roundDouble_eq_of_near 26.4 4 7430939385161318 (by norm_num) (by norm_num)
    (by norm_num) (by norm_num) (by norm_num [abs_lt]) (by norm_num)]
  norm_num [double264]

/-- The numeric text `26.35` as a double. -/
theorem roundDouble_26_35 : roundDouble 26.35 = .fin double2635 := by
  rw [roundDouble_eq_of_near 26.35 4 7416865636325786 (by norm_num) (by norm_num)
    (by norm_num) (by norm_num) (by norm_num [abs_lt]) (by norm_num)]
  norm_num [double2635]

/-- A non-zero multiple of `2 ^ (-48)` below 32 is a double. -/
theorem roundDouble_fixed (k : Int) (h0 : (k : ℚ) * 2 ^ (-48 : Int) ≠ 0)
    (h32 : |(k : ℚ) * 2 ^ (-48 : Int)| < 2 ^ (5 : Int)) :
    roundDouble (k * 2 ^ (-48 : Int)) = .fin (k * 2 ^ (-48 : Int)) := by
  apply roundDouble_exact
  · have := ulpExp_le _ 5 h0 h32 (by norm_num)
    omega
  · calc |(k : ℚ) * 2 ^ (-48 : Int)| < 2 ^ (5 : Int) := h32
      _ < 2 ^ 1024 := by norm_num

/-- The double of `26.4` rounds to itself. -/
theorem double264_fixed : roundDouble double264 = .fin double264 := by
  have h : double264 = ((7430939385161318 : Int) : ℚ) * 2 ^ (-48 : Int) := by
    norm_num [double264]
  rw [h]
  exact roundDouble_fixed _ (by norm_num) (by norm_num [abs_lt])

/-- The double of `26.35` rounds to itself. -/
theorem double2635_fixed : roundDouble double2635 = .fin double2635 := by
  have h : double2635 = ((7416865636325786 : Int) : ℚ) * 2 ^ (-48 : Int) := by
    norm_num [double2635]
  rw [h]
  exact roundDouble_fixed _ (by norm_num) (by norm_num [abs_lt])

/-- The mean `105 / 4` is a double, so the division of line 45 is exact. -/
theorem roundDouble_mean : roundDouble (105 / 4) = .fin (105 / 4) := by
  have h : (105 / 4 : ℚ) = ((7388718138654720 : Int) : ℚ) * 2 ^ (-48 : Int) := by
    norm_num
  rw [h]
  exact roundDouble_fixed _ (by norm_num) (by norm_num [abs_lt])


/-- The scan keeps, at every step, a record that is at least as old as everything before
it and strictly older than everything after it among the records seen so far. -/
theorem foldl_older_split (rest : List User) :
    ∀ (acc : User) (pre0 post0 : List User),
      (∀ u ∈ pre0, u.age ≤ acc.age) → (∀ u ∈ post0, u.age < acc.age) →
      ∃ pre post, pre0 ++ acc :: post0 ++ rest = pre ++ rest.foldl older acc :: post ∧
        (∀ u ∈ pre, u.age ≤ (rest.foldl older acc).age) ∧
        (∀ u ∈ post, u.age < (rest.foldl older acc).age) := by
  induction rest with
  | nil =>
    intro acc pre0 post0 hpre hpost
    exact ⟨pre0, post0, by simp, hpre, hpost⟩
  | cons y ys ih =>
    intro acc pre0 post0 hpre hpost
    by_cases hgt : acc.age > y.age
    · have hold : older acc y = acc := by simp [older, hgt]
      obtain ⟨pre, post, heq, h1, h2⟩ := ih acc pre0 (post0 ++ [y]) hpre (by
        intro u hu
        rcases List.mem_append.mp hu with h | h
        · exact hpost u h
        · simp at h; subst h; exact hgt)
      refine ⟨pre, post, ?_, ?_, ?_⟩
      · rw [List.foldl_cons, hold, ← heq]; simp
      · rw [List.foldl_cons, hold]; exact h1
      · rw [List.foldl_cons, hold]; exact h2
    · have hold : older acc y = y := by simp [older, hgt]
      have hle : acc.age ≤ y.age := not_lt.mp hgt
      obtain ⟨pre, post, heq, h1, h2⟩ := ih y (pre0 ++ acc :: post0) [] (by
        intro u hu
        rcases List.mem_append.mp hu with h | h
        · exact le_trans (hpre u h) hle
        · rcases List.mem_cons.mp h with h | h
          · subst h; exact hle
          · exact le_trans (le_of_lt (hpost u h)) hle) (by simp)
      refine ⟨pre, post, ?_, ?_, ?_⟩
      · rw [List.foldl_cons, hold, ← heq]; simp
      · rw [List.foldl_cons, hold]; exact h1
      · rw [List.foldl_cons, hold]; exact h2

/-- On a non-empty sequence the scan returns a record of maximum age, the last such one. -/
theorem oldestOf_split (users : List User) (h : users ≠ []) :
    ∃ pre r post, users = pre ++ r :: post ∧ oldestOf users = some r ∧
      (∀ u ∈ pre, u.age ≤ r.age) ∧ (∀ u ∈ post, u.age < r.age) := by
  cases users with
  | nil => exact absurd rfl h
  | cons x xs =>
    obtain ⟨pre, post, heq, h1, h2⟩ := foldl_older_split xs x [] [] (by simp) (by simp)
    exact ⟨pre, xs.foldl older x, post, by simpa using heq, rfl, h1, h2⟩

/-! ## Expected values on the fixture -/

/-- C1, as the claim states it, fails: for `minAge = 21`, inside 18..25, the expected
`adults_count` is 2, not 3, because Alice is 20. -/
theorem adults_at_21_ne_three :
    (18 : Int) ≤ 21 ∧ (21 : Int) ≤ 25 ∧ adults 21 "India" = 2 ∧ adults 21 "India" ≠ 3 := by
  decide

/-- C1, amended: for every `minAge` in 18..25 (and every target country) the expected
`adults_count` that `validate` computes from the fixture equals 3 exactly when
`minAge ≤ 20`. -/
theorem adults_eq_three_iff (minAge : Int) (targetCountry : String)
    (hlo : 18 ≤ minAge) (hhi : minAge ≤ 25) :
    adults minAge targetCountry = 3 ↔ minAge ≤ 20 := by
  interval_cases minAge <;> simp [adults, adultsOf, testData, List.filter]

/-- Instance of the amended C1 at `minAge = 19`. -/
theorem adults_eq_three_iff_witness :
    (18 : Int) ≤ 19 ∧ (19 : Int) ≤ 25 ∧ (adults 19 "UK" = 3 ↔ (19 : Int) ≤ 20) :=
  ⟨by decide, by decide, adults_eq_three_iff 19 "UK" (by decide) (by decide)⟩

/-- C2, as the claim states it, fails: for `targetCountry = "Canada"`, one of the four
options, only Charlie matches and the expected `target_country_count` is 1, not 2. -/
theorem targetCount_canada_ne_two :
    "Canada" ∈ countries ∧ targetCount "Canada" = 1 ∧ targetCount "Canada" ≠ 2 := by
  decide

/-- C2, amended: for every `targetCountry` among the four options the expected
`target_country_count` is 2 exactly when `targetCountry` is not `"Canada"`. -/
theorem targetCount_eq_two_iff (targetCountry : String) (h : targetCountry ∈ countries) :
    targetCount targetCountry = 2 ↔ targetCountry ≠ "Canada" := by
  simp only [countries, List.mem_cons, List.mem_singleton, List.not_mem_nil, or_false] at h
  rcases h with h | h | h | h <;> subst h <;> decide

/-- Instance of the amended C2 at `targetCountry = "USA"`. -/
theorem targetCount_eq_two_iff_witness :
    "USA" ∈ countries ∧ (targetCount "USA" = 2 ↔ "USA" ≠ "Canada") :=
  ⟨by decide, targetCount_eq_two_iff "USA" (by decide)⟩

/-! ## The oldest-user scan -/

/-- C3, as the claim states it, fails: on two records of equal age the first record of
maximum age is Ann, and the scan returns Ben. -/
theorem oldest_tie_returns_later :
    tiedUsers ≠ [] ∧ firstOldestNameOf tiedUsers = some "Ann" ∧
      oldestNameOf tiedUsers = some "Ben" := by
  decide

/-- C3, amended: for every non-empty sequence of records the scan returns the name of the
last record of maximum age: every record before it is at most as old, every record after
it is strictly younger. -/
theorem oldestNameOf_last_max (users : List User) (h : users ≠ []) :
    ∃ pre r post, users = pre ++ r :: post ∧ oldestNameOf users = some r.name ∧
      (∀ u ∈ pre, u.age ≤ r.age) ∧ (∀ u ∈ post, u.age < r.age) := by
  obtain ⟨pre, r, post, heq, hr, h1, h2⟩ := oldestOf_split users h
  exact ⟨pre, r, post, heq, by simp [oldestNameOf, hr], h1, h2⟩

/-- Instance of the amended C3 on two records of equal age. -/
theorem oldestNameOf_last_max_witness :
    tiedUsers ≠ [] ∧
    ∃ pre r post, tiedUsers = pre ++ r :: post ∧ oldestNameOf tiedUsers = some r.name ∧
      (∀ u ∈ pre, u.age ≤ r.age) ∧ (∀ u ∈ post, u.age < r.age) :=
  ⟨by decide, oldestNameOf_last_max tiedUsers (by decide)⟩

/-! ## The five checks -/

/-- The expected mean on the fixture. -/
theorem avgAge_eq (targetCountry : String) : avgAge targetCountry = 105 / 4 := by
  simp [avgAge, avgAgeOf, totalAgeOf, testData]

/-- On the fixture the scan ends on Dave, whatever the target country. -/
theorem oldest_eq (targetCountry : String) : oldest targetCountry = some "Dave" := by
  rfl

/-- When the five property reads and the numeric conversion succeed, the checks of lines
66-73 end in the verdict on the labels of the disagreeing checks. -/
theorem runChecks_eq (coerce : Coerce) (validEmails : Nat) (avgAge : ℚ) (targetCount : Nat)
    (oldest : String) (adults : Nat) (json v1 v2 v3 v4 v5 : JsVal) (n2 : JsNum)
    (h1 : getProp json "valid_email_count" = some v1)
    (h2 : getProp json "average_age" = some v2)
    (h3 : getProp json "target_country_count" = some v3)
    (h4 : getProp json "oldest_user" = some v4)
    (h5 : getProp json "adults_count" = some v5)
    (hn : toNumber coerce v2 = some n2) :
    runChecks coerce validEmails avgAge targetCount oldest adults json =
      verdict (failedLabels (strictNeNum v1 validEmails) (exceedsTolerance n2 avgAge)
        (strictNeNum v3 targetCount) (strictNeStr v4 oldest) (strictNeNum v5 adults)) := by
  simp only [runChecks, h1, h2, h3, h4, h5, hn]
  generalize strictNeNum v1 validEmails = d1
  generalize exceedsTolerance n2 avgAge = d2
  generalize strictNeNum v3 targetCount = d3
  generalize strictNeStr v4 oldest = d4
  generalize strictNeNum v5 adults = d5
  cases d1 <;> cases d2 <;> cases d3 <;> cases d4 <;> cases d5 <;> rfl

/-- A resolved fetch leads to exactly one request and to the outcome of lines 61-73. -/
theorem validate_resolved (coerce : Coerce) (minAge : Int) (targetCountry : String)
    (net : Net) (url : String) (response : Response)
    (hnet : net (mkRequest targetCountry url) = .resolved response) :
    validate coerce minAge targetCountry net url =
      { requests := [mkRequest targetCountry url]
        outcome := afterFetch coerce (validEmails targetCountry) (avgAge targetCountry)
          (targetCount targetCountry) "Dave" (adults minAge targetCountry) response } := by
  simp only [validate, oldest_eq, hnet]

/-- The outcome for an HTTP-200 answer whose body parsed and whose five fields could be
read. -/
theorem validate_ok_outcome (coerce : Coerce) (minAge : Int) (targetCountry : String)
    (net : Net) (url : String) (response : Response) (json v1 v2 v3 v4 v5 : JsVal)
    (n2 : JsNum)
    (hnet : net (mkRequest targetCountry url) = .resolved response)
    (hstatus : response.status = 200) (hjson : response.json = some json)
    (h1 : getProp json "valid_email_count" = some v1)
    (h2 : getProp json "average_age" = some v2)
    (h3 : getProp json "target_country_count" = some v3)
    (h4 : getProp json "oldest_user" = some v4)
    (h5 : getProp json "adults_count" = some v5)
    (hn : toNumber coerce v2 = some n2) :
    (validate coerce minAge targetCountry net url).outcome =
      verdict (failedLabels (strictNeNum v1 (validEmails targetCountry))
        (exceedsTolerance n2 (avgAge targetCountry))
        (strictNeNum v3 (targetCount targetCountry)) (strictNeStr v4 "Dave")
        (strictNeNum v5 (adults minAge targetCountry))) := by
  rw [validate_resolved coerce minAge targetCountry net url response hnet]
  simp only [afterFetch, hstatus, hjson, ne_eq, not_true_eq_false, if_false]
  exact runChecks_eq coerce _ _ _ _ _ json v1 v2 v3 v4 v5 n2 h1 h2 h3 h4 h5 hn

/-- C4, the code at the failing input: with `minAge = 18` and `targetCountry = "USA"`, an
HTTP-200 answer whose body lacks `average_age` (the other four fields being right) is
accepted, `validate` returns true. -/
theorem validate_accepts_missing_average (coerce : Coerce) (url : String) :
    getProp bodyWithoutAverage "average_age" = some .undefined ∧
      (validate coerce 18 "USA" (answering ⟨200, some bodyWithoutAverage⟩) url).outcome
        = .ok true := by
  exact ⟨rfl, rfl⟩

/-- C5, as the claim states it, fails: the body `null` is a parsed JSON body, and on it
`validate` neither returns true nor fails with an error made of labels; the first
property read raises a `TypeError`. -/
theorem validate_null_body :
    (validate coerceNaN 18 "USA" (answering ⟨200, some .null⟩) "http://localhost:8000").outcome
      = .error .typeError := by
  rfl

/-- C5, amended: for every HTTP-200 response whose parsed body lets the five fields be
read (it is not `null`; an absent field reads as `undefined`) and whose `average_age`
converts to a number, all five checks are evaluated: the outcome is the verdict on the
labels of the disagreeing checks, each once, in the order Q1 .. Q5, joined by `", "`;
`validate` returns true if and only if no check disagrees; and a response wrong only in
`oldest_user` and `adults_count` fails with
`"Q4 Failed: Oldest user, Q5 Failed: Adults count"`. -/
theorem validate_reports_all_failed_checks (coerce : Coerce) (minAge : Int)
    (targetCountry : String) (net : Net) (url : String) (response : Response)
    (json v1 v2 v3 v4 v5 : JsVal) (n2 : JsNum)
    (hnet : net (mkRequest targetCountry url) = .resolved response)
    (hstatus : response.status = 200) (hjson : response.json = some json)
    (h1 : getProp json "valid_email_count" = some v1)
    (h2 : getProp json "average_age" = some v2)
    (h3 : getProp json "target_country_count" = some v3)
    (h4 : getProp json "oldest_user" = some v4)
    (h5 : getProp json "adults_count" = some v5)
    (hn : toNumber coerce v2 = some n2) :
    (validate coerce minAge targetCountry net url).outcome =
        verdict (failedLabels (strictNeNum v1 (validEmails targetCountry))
          (exceedsTolerance n2 (avgAge targetCountry))
          (strictNeNum v3 (targetCount targetCountry)) (strictNeStr v4 "Dave")
          (strictNeNum v5 (adults minAge targetCountry))) ∧
      ((validate coerce minAge targetCountry net url).outcome = .ok true ↔
        (strictNeNum v1 (validEmails targetCountry) = false ∧
          exceedsTolerance n2 (avgAge targetCountry) = false ∧
          strictNeNum v3 (targetCount targetCountry) = false ∧
          strictNeStr v4 "Dave" = false ∧
          strictNeNum v5 (adults minAge targetCountry) = false)) ∧
      (strictNeNum v1 (validEmails targetCountry) = false →
        exceedsTolerance n2 (avgAge targetCountry) = false →
        strictNeNum v3 (targetCount targetCountry) = false →
        strictNeStr v4 "Dave" = true →
        strictNeNum v5 (adults minAge targetCountry) = true →
        (validate coerce minAge targetCountry net url).outcome =
          .error (.error "Q4 Failed: Oldest user, Q5 Failed: Adults count")) := by
  rw [validate_ok_outcome coerce minAge targetCountry net url response json v1 v2 v3 v4 v5 n2
    hnet hstatus hjson h1 h2 h3 h4 h5 hn]
  generalize strictNeNum v1 (validEmails targetCountry) = d1
  generalize exceedsTolerance n2 (avgAge targetCountry) = d2
  generalize strictNeNum v3 (targetCount targetCountry) = d3
  generalize strictNeStr v4 "Dave" = d4
  generalize strictNeNum v5 (adults minAge targetCountry) = d5
  refine ⟨rfl, ?_, ?_⟩
  · cases d1 <;> cases d2 <;> cases d3 <;> cases d4 <;> cases d5 <;>
      simp [verdict, failedLabels]
  · intro e1 e2 e3 e4 e5
    subst e1 e2 e3 e4 e5
    rfl

/-- Instance of the amended C5: an answer wrong only in `oldest_user` and `adults_count`. -/
theorem validate_reports_all_failed_checks_witness :
    (validate coerceNaN 18 "USA" (answering ⟨200, some bodyWrongQ4Q5⟩)
      "http://localhost:8000").outcome =
      .error (.error "Q4 Failed: Oldest user, Q5 Failed: Adults count") :=
  (validate_reports_all_failed_checks coerceNaN 18 "USA" (answering ⟨200, some bodyWrongQ4Q5⟩)
    "http://localhost:8000" ⟨200, some bodyWrongQ4Q5⟩ bodyWrongQ4Q5
    (.num 3) (.num (105 / 4)) (.num 2) (.str "Alice") (.num 4) (.fin (105 / 4))
    rfl rfl rfl rfl rfl rfl rfl rfl rfl).2.2
    (by decide)
    (by rw [avgAge_eq]; exact exceedsTolerance_self _)
    (by decide) (by decide) (by decide)

/-! ## Agreement of the grader with the brief -/

/-- The table's email count on the fixture is the grader's. -/
theorem specValidEmailCount_fixture (targetCountry : String) :
    specValidEmailCount (testData targetCountry) = validEmails targetCountry := by
  rfl

/-- The table's mean on the fixture is the grader's. -/
theorem specAverageAge_fixture (targetCountry : String) :
    specAverageAge (testData targetCountry) = avgAge targetCountry := by
  rw [avgAge_eq]
  simp [specAverageAge, testData]
  norm_num

/-- The table's country count on the fixture is the grader's. -/
theorem specTargetCountryCount_fixture (targetCountry : String) :
    specTargetCountryCount targetCountry (testData targetCountry) = targetCount targetCountry := by
  simp only [specTargetCountryCount, targetCount, targetCountOf, List.countP_eq_length_filter]
  congr 2

/-- The table's oldest user on the fixture is Dave. -/
theorem firstOldestNameOf_fixture (targetCountry : String) :
    firstOldestNameOf (testData targetCountry) = some "Dave" := by
  rfl

/-- The table's adult count on the fixture is the grader's. -/
theorem specAdultsCount_fixture (minAge : Int) (targetCountry : String) :
    specAdultsCount minAge (testData targetCountry) = adults minAge targetCountry := by
  simp [specAdultsCount, adults, adultsOf, List.countP_eq_length_filter]

/-- C6: for every `minAge` in 18..25 and every `targetCountry` among the four options, an
HTTP-200 response whose five fields carry the values that the table of section 6 defines
on the posted fixture (count of emails containing `"@"`, mean of the ages, count of users
of the target country, name of the user of maximum age, count of users with
`age >= minAge`) makes `validate` return true. -/
theorem validate_accepts_reference_answer (coerce : Coerce) (minAge : Int)
    (targetCountry : String) (net : Net) (url : String) (response : Response) (json : JsVal)
    (name : String)
    (_hlo : 18 ≤ minAge) (_hhi : minAge ≤ 25) (_hc : targetCountry ∈ countries)
    (hnet : net (mkRequest targetCountry url) = .resolved response)
    (hstatus : response.status = 200) (hjson : response.json = some json)
    (hname : firstOldestNameOf (mkRequest targetCountry url).body = some name)
    (h1 : getProp json "valid_email_count" =
      some (.num (specValidEmailCount (mkRequest targetCountry url).body)))
    (h2 : getProp json "average_age" =
      some (.num (specAverageAge (mkRequest targetCountry url).body)))
    (h3 : getProp json "target_country_count" =
      some (.num (specTargetCountryCount targetCountry (mkRequest targetCountry url).body)))
    (h4 : getProp json "oldest_user" = some (.str name))
    (h5 : getProp json "adults_count" =
      some (.num (specAdultsCount minAge (mkRequest targetCountry url).body))) :
    (validate coerce minAge targetCountry net url).outcome = .ok true := by
  have hbody : (mkRequest targetCountry url).body = testData targetCountry := rfl
  rw [hbody] at hname h1 h2 h3 h5
  rw [firstOldestNameOf_fixture] at hname
  obtain rfl : "Dave" = name := Option.some.inj hname
  rw [validate_ok_outcome coerce minAge targetCountry net url response json _ _ _ _ _ _
    hnet hstatus hjson h1 h2 h3 h4 h5 rfl]
  rw [specValidEmailCount_fixture, specAverageAge_fixture, specTargetCountryCount_fixture,
    specAdultsCount_fixture]
  simp [verdict, failedLabels, strictNeNum, strictNeStr, exceedsTolerance_self]

/-- Instance of C6: the reference service for `minAge = 21`, `targetCountry = "Canada"`. -/
theorem validate_accepts_reference_answer_witness :
    (validate coerceNaN 21 "Canada" (referenceService 21 "Canada")
      "http://localhost:8000/").outcome = .ok true :=
  validate_accepts_reference_answer coerceNaN 21 "Canada" (referenceService 21 "Canada")
    "http://localhost:8000/"
    ⟨200, some (referenceBody 21 "Canada" (testData "Canada"))⟩
    (referenceBody 21 "Canada" (testData "Canada")) "Dave"
    (by decide) (by decide) (by decide) rfl rfl rfl rfl rfl rfl rfl rfl rfl

/-! ## The tolerance of the Q2 check -/

/-- When the average check disagrees, the error message carries its label. -/
theorem verdict_includes_q2 (d1 d3 d4 d5 : Bool) :
    ∃ msg, verdict (failedLabels d1 true d3 d4 d5) = .error (.error msg) ∧
      includes msg labelQ2 = true := by
  cases d1 <;> cases d3 <;> cases d4 <;> cases d5 <;> exact ⟨_, rfl, by decide⟩

/-- When the average check agrees, no error message carries its label. -/
theorem verdict_excludes_q2 (d1 d3 d4 d5 : Bool) (msg : String)
    (h : verdict (failedLabels d1 false d3 d4 d5) = .error (.error msg)) :
    includes msg labelQ2 = false := by
  cases d1 <;> cases d3 <;> cases d4 <;> cases d5 <;> cases h <;> decide

/-- C7, as the claim states it, fails: the numeric text `26.35` is within the tolerance
over exact rationals, `|26.35 - 26.25| ≤ 0.1`, yet the double it parses to lies above
`26.35`, and the answer carrying it (right in the other four fields) fails with
`"Q2 Failed: Avg Age"`. -/
theorem q2_rejects_text_26_35 :
    roundDouble 26.35 = .fin double2635 ∧ |(26.35 : ℚ) - 26.25| ≤ 0.1 ∧
      getProp bodyAverage2635 "average_age" = some (.num double2635) ∧
      (validate coerceNaN 18 "USA" (answering ⟨200, some bodyAverage2635⟩)
        "http://localhost:8000").outcome = .error (.error "Q2 Failed: Avg Age") := by
  refine ⟨roundDouble_26_35, by norm_num [abs_le], rfl, ?_⟩
  have hex : exceedsTolerance (.fin double2635) (105 / 4) = true :=
    (exceedsTolerance_iff double2635 double2635_fixed).mpr (by
      rw [lt_abs]
      left
      norm_num [double2635])
  rw [validate_ok_outcome coerceNaN 18 "USA" (answering ⟨200, some bodyAverage2635⟩)
    "http://localhost:8000" ⟨200, some bodyAverage2635⟩ bodyAverage2635
    (.num 3) (.num double2635) (.num 2) (.str "Dave") (.num 3) (.fin double2635)
    rfl rfl rfl rfl rfl rfl rfl rfl rfl, avgAge_eq, hex]
  have e1 : strictNeNum (.num 3) (validEmails "USA") = false := by decide
  have e3 : strictNeNum (.num 2) (targetCount "USA") = false := by decide
  have e4 : strictNeStr (.str "Dave") "Dave" = false := by decide
  have e5 : strictNeNum (.num 3) (adults 18 "USA") = false := by decide
  rw [e1, e3, e4, e5]
  rfl

/-- C7, amended: for every finite double `a` that an HTTP-200 response carries as
`average_age` (the other four fields being whatever they are), the Q2 check, carried out
in double arithmetic, accepts `a`, that is, `validate` does not fail with a message
containing `"Q2 Failed: Avg Age"`, if and only if the exact value of `a` satisfies
`|a - 26.25| ≤ 0.1`; in particular the double of the numeric text `26.3` is accepted and
the double of `26.4` yields a failure whose message contains `"Q2 Failed: Avg Age"`. -/
theorem q2_accepts_iff_within_tolerance (coerce : Coerce) (minAge : Int)
    (targetCountry : String) (net : Net) (url : String) (response : Response)
    (json v1 v3 v4 v5 : JsVal) (a : ℚ)
    (ha : roundDouble a = .fin a)
    (hnet : net (mkRequest targetCountry url) = .resolved response)
    (hstatus : response.status = 200) (hjson : response.json = some json)
    (h1 : getProp json "valid_email_count" = some v1)
    (h2 : getProp json "average_age" = some (.num a))
    (h3 : getProp json "target_country_count" = some v3)
    (h4 : getProp json "oldest_user" = some v4)
    (h5 : getProp json "adults_count" = some v5) :
    ((¬ ∃ msg, (validate coerce minAge targetCountry net url).outcome = .error (.error msg) ∧
        includes msg "Q2 Failed: Avg Age" = true) ↔ |a - 26.25| ≤ 0.1) ∧
      (roundDouble 26.3 = .fin a →
        ¬ ∃ msg, (validate coerce minAge targetCountry net url).outcome = .error (.error msg) ∧
          includes msg "Q2 Failed: Avg Age" = true) ∧
      (roundDouble 26.4 = .fin a →
        ∃ msg, (validate coerce minAge targetCountry net url).outcome = .error (.error msg) ∧
          includes msg "Q2 Failed: Avg Age" = true) := by
  rw [validate_ok_outcome coerce minAge targetCountry net url response json v1 (.num a) v3 v4
    v5 (.fin a) hnet hstatus hjson h1 h2 h3 h4 h5 rfl, avgAge_eq]
  generalize strictNeNum v1 (validEmails targetCountry) = d1
  generalize strictNeNum v3 (targetCount targetCountry) = d3
  generalize strictNeStr v4 "Dave" = d4
  generalize strictNeNum v5 (adults minAge targetCountry) = d5
  have hex := exceedsTolerance_iff a ha
  have hiff : (¬ ∃ msg, verdict (failedLabels d1 (exceedsTolerance (.fin a) (105 / 4)) d3 d4 d5)
      = .error (.error msg) ∧ includes msg "Q2 Failed: Avg Age" = true) ↔
      |a - 26.25| ≤ 0.1 := by
    by_cases hgt : 1 / 10 < |a - 105 / 4|
    · rw [hex.mpr hgt]
      constructor
      · intro hno
        exact absurd (verdict_includes_q2 d1 d3 d4 d5) hno
      · intro hle
        norm_num at hle hgt
        exact absurd hle (not_le.mpr hgt)
    · have hd : exceedsTolerance (.fin a) (105 / 4) = false := by
        rw [← Bool.not_eq_true, hex]
        exact hgt
      rw [hd]
      constructor
      · intro _
        norm_num
        exact not_lt.mp hgt
      · rintro _ ⟨msg, hmsg, hinc⟩
        have := verdict_excludes_q2 d1 d3 d4 d5 msg hmsg
        rw [show labelQ2 = "Q2 Failed: Avg Age" from rfl] at this
        rw [this] at hinc
        exact Bool.false_ne_true hinc
  refine ⟨hiff, ?_, ?_⟩
  · intro h263
    rw [roundDouble_26_3] at h263
    obtain rfl : double263 = a := JsNum.fin.inj h263
    refine hiff.mpr ?_
    norm_num [abs_le, double263]
  · intro h264
    rw [roundDouble_26_4] at h264
    obtain rfl : double264 = a := JsNum.fin.inj h264
    by_contra hno
    have hle := hiff.mp hno
    norm_num [abs_le, double264] at hle

/-- Instance of C7: an answer whose `average_age` is written `26.4`. -/
theorem q2_accepts_iff_within_tolerance_witness :
    ∃ msg, (validate coerceNaN 18 "USA" (answering ⟨200, some bodyAverage264⟩)
      "http://localhost:8000").outcome = .error (.error msg) ∧
      includes msg "Q2 Failed: Avg Age" = true :=
  (q2_accepts_iff_within_tolerance coerceNaN 18 "USA" (answering ⟨200, some bodyAverage264⟩)
    "http://localhost:8000" ⟨200, some bodyAverage264⟩ bodyAverage264
    (.num 3) (.num 2) (.str "Dave") (.num 3) double264 double264_fixed
    rfl rfl rfl rfl rfl rfl rfl rfl).2.2 roundDouble_26_4

/-! ## Failures before the checks -/

/-- The substring test finds exactly the contiguous occurrences. -/
theorem includesChars_iff (needle hay : List Char) :
    includesChars needle hay = true ↔ needle <:+: hay := by
  induction hay with
  | nil =>
    cases needle <;> simp [includesChars]
  | cons c cs ih =>
    rw [includesChars, Bool.or_eq_true, ih, List.infix_cons_iff, List.isPrefixOf_iff_prefix]

/-- A text that lacks a character of the pattern does not include the pattern. -/
theorem includes_eq_false_of_not_mem (s sub : String) (c : Char) (hsub : c ∈ sub.data)
    (hs : c ∉ s.data) : includes s sub = false := by
  rw [← Bool.not_eq_true, includes, includesChars_iff]
  intro hocc
  exact hs (List.IsInfix.subset hocc hsub)

/-- No decimal digit is the letter Q. -/
theorem digitChar_ne_Q (n : Nat) : Nat.digitChar (n % 10) ≠ 'Q' := by
  have h : ∀ k, k < 10 → Nat.digitChar k ≠ 'Q' := by decide
  exact h _ (Nat.mod_lt _ (by decide))

/-- The digits of a number contain no Q. -/
theorem toDigitsCore_no_Q (fuel : Nat) :
    ∀ (n : Nat) (acc : List Char), 'Q' ∉ acc → 'Q' ∉ Nat.toDigitsCore 10 fuel n acc := by
  induction fuel with
  | zero => intro n acc h; simpa [Nat.toDigitsCore] using h
  | succ fuel ih =>
    intro n acc h
    have hcons : 'Q' ∉ Nat.digitChar (n % 10) :: acc := by
      intro hmem
      rcases List.mem_cons.mp hmem with h1 | h1
      · exact digitChar_ne_Q n h1.symm
      · exact h h1
    rw [Nat.toDigitsCore]
    split
    · exact hcons
    · exact ih _ _ hcons

/-- The status-code error message contains no Q. -/
theorem status_message_no_Q (status : Nat) :
    'Q' ∉ ("Expected 200 OK, got " ++ toString status).data := by
  rw [String.data_append, List.mem_append]
  rintro (h | h)
  · revert h; decide
  · exact toDigitsCore_no_Q _ _ [] (by simp) h

/-- C8: for every response whose HTTP status `s` is not 200, whatever its body is (parsed
or not), `validate` fails with the message `"Expected 200 OK, got <s>"` after its single
request, and none of the five Q-labels occurs in that message. -/
theorem validate_rejects_non_200 (coerce : Coerce) (minAge : Int) (targetCountry : String)
    (net : Net) (url : String) (response : Response)
    (hnet : net (mkRequest targetCountry url) = .resolved response)
    (hstatus : response.status ≠ 200) :
    (validate coerce minAge targetCountry net url).outcome =
        .error (.error ("Expected 200 OK, got " ++ toString response.status)) ∧
      (validate coerce minAge targetCountry net url).requests = [mkRequest targetCountry url] ∧
      ∀ label ∈ allLabels,
        includes ("Expected 200 OK, got " ++ toString response.status) label = false := by
  rw [validate_resolved coerce minAge targetCountry net url response hnet]
  refine ⟨?_, rfl, ?_⟩
  · simp only [afterFetch, hstatus, ne_eq, not_false_eq_true, if_true]
    rfl
  · intro label hlabel
    refine includes_eq_false_of_not_mem _ label 'Q' ?_ (status_message_no_Q response.status)
    simp only [allLabels, List.mem_cons, List.mem_singleton, List.not_mem_nil, or_false]
      at hlabel
    rcases hlabel with h | h | h | h | h <;> subst h <;> decide

/-- Instance of C8: an HTTP 404 answer. -/
theorem validate_rejects_non_200_witness :
    (validate coerceNaN 18 "USA" (answering ⟨404, some bodyWrongQ4Q5⟩)
      "http://localhost:8000").outcome = .error (.error "Expected 200 OK, got 404") :=
  (validate_rejects_non_200 coerceNaN 18 "USA" (answering ⟨404, some bodyWrongQ4Q5⟩)
    "http://localhost:8000" ⟨404, some bodyWrongQ4Q5⟩ rfl (by decide)).1

/-- C9: when the single fetch fails with a network error carrying message `m`, `validate`
fails with the message `"Connection failed: "` followed by `m`; the request that failed is
the only one issued, and the outcome does not depend on anything a response could carry. -/
theorem validate_wraps_network_error (coerce : Coerce) (minAge : Int)
    (targetCountry : String) (net : Net) (url : String) (m : String)
    (hnet : net (mkRequest targetCountry url) = .rejected m) :
    (validate coerce minAge targetCountry net url).outcome =
        .error (.error ("Connection failed: " ++ m)) ∧
      (validate coerce minAge targetCountry net url).requests = [mkRequest targetCountry url] := by
  constructor
  · simp only [validate, oldest_eq, hnet]
    rfl
  · simp only [validate, oldest_eq, hnet]

/-- Instance of C9: a service that cannot be reached. -/
theorem validate_wraps_network_error_witness :
    (validate coerceNaN 18 "USA" (unreachable "fetch failed") "http://localhost:8000").outcome =
      .error (.error "Connection failed: fetch failed") :=
  (validate_wraps_network_error coerceNaN 18 "USA" (unreachable "fetch failed")
    "http://localhost:8000" "fetch failed" rfl).1

/-! ## Consistency of the brief with the grader -/

/-- Dropping a leading run stops at the latest at a character outside the run. -/
theorem dropWhile_append_keep (P : Char → Bool) (a : Char) (rest : List Char)
    (ha : P a = false) :
    ∀ p : List Char, ∃ p1, (p ++ a :: rest).dropWhile P = p1 ++ a :: rest := by
  intro p
  induction p with
  | nil => exact ⟨[], by simp [List.dropWhile, ha]⟩
  | cons c cs ih =>
    by_cases hc : P c = true
    · obtain ⟨p1, hp1⟩ := ih
      exact ⟨p1, by simpa [List.dropWhile, hc] using hp1⟩
    · exact ⟨c :: cs, by simp [List.dropWhile, hc]⟩

/-- Trimming keeps everything between two characters that are not white space. -/
theorem trimChars_keep (a b : Char) (p m q : List Char)
    (ha : isTrimChar a = false) (hb : isTrimChar b = false) :
    ∃ p1 q1, trimChars (p ++ a :: (m ++ b :: q)) = p1 ++ a :: (m ++ b :: q1) := by
  obtain ⟨p1, hp1⟩ := dropWhile_append_keep isTrimChar a (m ++ b :: q) ha p
  have hrev : (p1 ++ a :: (m ++ b :: q)).reverse
      = q.reverse ++ b :: (m.reverse ++ a :: p1.reverse) := by simp
  obtain ⟨q1, hq1⟩ :=
    dropWhile_append_keep isTrimChar b (m.reverse ++ a :: p1.reverse) hb q.reverse
  refine ⟨p1, q1.reverse, ?_⟩
  rw [trimChars, hp1, hrev, hq1]
  simp

/-- The characters of the rendered brief, around the two interpolated values. -/
theorem brief_data (minAge : Int) (targetCountry : String) :
    (∃ p1 q1, (brief minAge targetCountry).data =
      p1 ++ (countryLine targetCountry).data ++ q1) ∧
    (∃ p2 q2, (brief minAge targetCountry).data =
      p2 ++ (adultsLine minAge).data ++ q2) := by
  obtain ⟨h0, hhead⟩ : "Count of users from \"".data <:+ briefHead.data := by decide
  obtain ⟨m0, hmid⟩ : "\"".data <+: briefMid.data := by decide
  obtain ⟨m1, hmid2⟩ : "Count of users with age >= ".data <:+ briefMid.data := by decide
  obtain ⟨t0, htail⟩ : ".".data <+: briefTail.data := by decide
  have hfull : (briefHead ++ targetCountry ++ briefMid ++ toString minAge ++ briefTail).data
      = briefHead.data ++ targetCountry.data ++ briefMid.data ++ (toString minAge).data
        ++ briefTail.data := by
    simp only [String.data_append]
  constructor
  · have hsplit : briefHead.data ++ targetCountry.data ++ briefMid.data
        ++ (toString minAge).data ++ briefTail.data
        = h0 ++ 'C' :: (("ount of users from \"".data ++ targetCountry.data) ++
            '"' :: (m0 ++ (toString minAge).data ++ briefTail.data)) := by
      rw [← hhead, ← hmid]
      simp
    obtain ⟨p1, q1, hp⟩ := trimChars_keep 'C' '"' h0
      ("ount of users from \"".data ++ targetCountry.data)
      (m0 ++ (toString minAge).data ++ briefTail.data) (by decide) (by decide)
    refine ⟨p1, q1, ?_⟩
    rw [brief, trim, hfull, hsplit, hp]
    simp [countryLine]
  · have hsplit : briefHead.data ++ targetCountry.data ++ briefMid.data
        ++ (toString minAge).data ++ briefTail.data
        = (briefHead.data ++ targetCountry.data ++ m1) ++
          'C' :: (("ount of users with age >= ".data ++ (toString minAge).data) ++
            '.' :: t0) := by
      rw [← hmid2, ← htail]
      simp
    obtain ⟨p2, q2, hp⟩ := trimChars_keep 'C' '.' (briefHead.data ++ targetCountry.data ++ m1)
      ("ount of users with age >= ".data ++ (toString minAge).data) t0 (by decide) (by decide)
    refine ⟨p2, '.' :: q2, ?_⟩
    rw [brief, trim, hfull, hsplit, hp]
    simp [adultsLine]

/-- C10: for every pair (`minAge`, `targetCountry`) that the generator samples, whatever
the random source, the returned brief contains the lines
`Count of users from "<targetCountry>"` and `Count of users with age >= <minAge>`, and the
returned `validate` is the grader for exactly these two values: it posts the fixture with
Charlie's country set to `targetCountry` and expects `target_country_count` and
`adults_count` as computed from them. -/
theorem brief_and_grader_share_parameters {σ : Type} (coerce : Coerce) (gen : Gen σ)
    (rng : σ) :
    includes (generate coerce gen rng).brief
        (countryLine (sampledTargetCountry gen rng)) = true ∧
      includes (generate coerce gen rng).brief (adultsLine (sampledMinAge gen rng)) = true ∧
      (generate coerce gen rng).validate =
        validate coerce (sampledMinAge gen rng) (sampledTargetCountry gen rng) ∧
      (∀ (net : Net) (url : String) (json : JsVal),
        net (mkRequest (sampledTargetCountry gen rng) url) = .resolved ⟨200, some json⟩ →
        ((generate coerce gen rng).validate net url).requests =
            [{ endpoint := endpoint url, method := "POST",
               headers := [("Content-Type", "application/json")],
               body := testData (sampledTargetCountry gen rng) }] ∧
          ((generate coerce gen rng).validate net url).outcome =
            runChecks coerce (validEmails (sampledTargetCountry gen rng))
              (avgAge (sampledTargetCountry gen rng))
              (targetCount (sampledTargetCountry gen rng)) "Dave"
              (adults (sampledMinAge gen rng) (sampledTargetCountry gen rng)) json) := by
  obtain ⟨⟨p1, q1, h1⟩, ⟨p2, q2, h2⟩⟩ :=
    brief_data (sampledMinAge gen rng) (sampledTargetCountry gen rng)
  refine ⟨?_, ?_, rfl, ?_⟩
  · rw [includes, includesChars_iff]
    exact ⟨p1, q1, h1.symm⟩
  · rw [includes, includesChars_iff]
    exact ⟨p2, q2, h2.symm⟩
  · intro net url json hnet
    have hv : (generate coerce gen rng).validate =
        validate coerce (sampledMinAge gen rng) (sampledTargetCountry gen rng) := rfl
    rw [hv, validate_resolved coerce _ _ net url _ hnet]
    exact ⟨rfl, rfl⟩

/-- Instance of C10 for a random source that draws 18 and `"India"`. -/
theorem brief_and_grader_share_parameters_witness :
    includes (generate coerceNaN firstGen ()).brief (countryLine "India") = true ∧
      includes (generate coerceNaN firstGen ()).brief (adultsLine 18) = true :=
  ⟨(brief_and_grader_share_parameters coerceNaN firstGen ()).1,
    (brief_and_grader_share_parameters coerceNaN firstGen ()).2.1⟩

/-! ## The request endpoint -/

/-- Whatever the network answers, `validate` issues exactly the request of lines 52-56. -/
theorem validate_requests (coerce : Coerce) (minAge : Int) (targetCountry : String)
    (net : Net) (url : String) :
    (validate coerce minAge targetCountry net url).requests = [mkRequest targetCountry url] := by
  simp only [validate, oldest_eq]
  cases net (mkRequest targetCountry url) <;> rfl

/-- A URL followed by one slash loses exactly that slash. -/
theorem cleanUrl_append_slash (u : String) : cleanUrl (u ++ "/") = u := by
  have hdata : (u ++ "/").data = u.data ++ ['/'] := by rw [String.data_append]
  simp [cleanUrl, hdata]

/-- C11: for every URL string `u`, the request endpoint is `u` with at most one trailing
`"/"` removed, followed by `"/analyze_users"`: `u ++ "/"` gives `u ++ "/analyze_users"`;
if `u` does not end in `"/"` then `u` itself gives the same endpoint and nothing of `u`
is altered; only one trailing slash is stripped, so `u ++ "//"` gives
`u ++ "//analyze_users"`; and this endpoint is the one of the single request that
`validate` issues. -/
theorem endpoint_strips_one_trailing_slash (u : String) :
    endpoint (u ++ "/") = u ++ "/analyze_users" ∧
      (u.data.getLast? ≠ some '/' →
        endpoint u = u ++ "/analyze_users" ∧ endpoint u = endpoint (u ++ "/")) ∧
      endpoint (u ++ "//") = u ++ "//analyze_users" ∧
      (∀ (coerce : Coerce) (minAge : Int) (targetCountry : String) (net : Net),
        (validate coerce minAge targetCountry net u).requests.map (fun r => r.endpoint)
          = [endpoint u]) := by
  have hslash : endpoint (u ++ "/") = u ++ "/analyze_users" := by
    rw [endpoint, cleanUrl_append_slash]
  refine ⟨hslash, ?_, ?_, ?_⟩
  · intro hlast
    have hclean : cleanUrl u = u := by simp [cleanUrl, hlast]
    have hu : endpoint u = u ++ "/analyze_users" := by rw [endpoint, hclean]
    exact ⟨hu, by rw [hu, hslash]⟩
  · have htwo : u ++ "//" = (u ++ "/") ++ "/" := by
      apply String.ext
      simp only [String.data_append, List.append_assoc]
      rfl
    rw [htwo, endpoint, cleanUrl_append_slash]
    apply String.ext
    simp only [String.data_append, List.append_assoc]
    rfl
  · intro coerce minAge targetCountry net
    rw [validate_requests]
    rfl

/-- Instances of C11: a base URL with one and with two trailing slashes. -/
theorem endpoint_strips_one_trailing_slash_witness :
    endpoint ("http://localhost:8000" ++ "/") = "http://localhost:8000" ++ "/analyze_users" ∧
      endpoint ("http://localhost:8000" ++ "//")
        = "http://localhost:8000" ++ "//analyze_users" :=
  ⟨(endpoint_strips_one_trailing_slash "http://localhost:8000").1,
    (endpoint_strips_one_trailing_slash "http://localhost:8000").2.2.1⟩

/-! ## The expected values that do not vary -/

/-- C12: for every `targetCountry` (the minimum age is not an argument of the mean at
all), the expected `average_age` that `validate` computes is the total age
`20 + 15 + 30 + 40` divided by the number 4 of records, that is exactly `105 / 4 = 26.25`,
the same for all values of the two sampled parameters. -/
theorem avgAge_is_26_25 (targetCountry : String) :
    totalAgeOf (testData targetCountry) = 20 + 15 + 30 + 40 ∧
      (testData targetCountry).length = 4 ∧
      avgAge targetCountry = (20 + 15 + 30 + 40) / 4 ∧
      avgAge targetCountry = 105 / 4 ∧
      avgAge targetCountry = 26.25 ∧
      ∀ other : String, avgAge other = avgAge targetCountry := by
  refine ⟨rfl, rfl, ?_, avgAge_eq targetCountry, ?_, ?_⟩
  · rw [avgAge_eq]; norm_num
  · rw [avgAge_eq]; norm_num
  · intro other
    rw [avgAge_eq, avgAge_eq]

/-- C13: for every `targetCountry` (the minimum age is not an argument of the count), the
expected `valid_email_count` that `validate` computes, the count of fixture records whose
email contains `"@"`, equals 3. -/
theorem validEmails_eq_three (targetCountry : String) : validEmails targetCountry = 3 := by
  rfl

/-- C14: for every `targetCountry` (the minimum age is not an argument of the scan), the
expected `oldest_user` that `validate` computes on the fixture is `"Dave"`, whose age 40
is above the age of every other record. -/
theorem oldest_is_dave (targetCountry : String) :
    oldest targetCountry = some "Dave" ∧
      ∀ u ∈ testData targetCountry, u.name ≠ "Dave" → u.age < 40 := by
  refine ⟨rfl, ?_⟩
  intro u hu hname
  simp only [testData, List.mem_cons, List.mem_singleton, List.not_mem_nil, or_false] at hu
  rcases hu with h | h | h | h <;> subst h
  · decide
  · decide
  · show (30 : Int) < 40
    decide
  · exact absurd rfl hname

/-- C15: for every `targetCountry`, any string whatever, the expected
`target_country_count` computed on the substituted fixture is at least 1, Charlie's
record being among the matching ones. -/
theorem targetCount_pos (targetCountry : String) :
    1 ≤ targetCount targetCountry ∧
      ∃ u ∈ (testData targetCountry).filter (fun u => u.country == targetCountry),
        u.name = "Charlie" := by
  have hmem : (testData targetCountry).get ⟨2, by simp [testData]⟩ ∈
      (testData targetCountry).filter (fun u => u.country == targetCountry) := by
    rw [List.mem_filter]
    exact ⟨List.get_mem _ _ _, by simp [testData]⟩
  exact ⟨List.length_pos_of_mem hmem, _, hmem, rfl⟩

/-! ## Behaviour of the scan and of the two counts -/

/-- C16: for every non-empty sequence of records the reduce with callback
`(prev, curr) => (prev.age > curr.age) ? prev : curr` returns a record of the sequence
of maximum age, and among the records of maximum age the last one: every record after it
is strictly younger. -/
theorem oldestOf_is_last_of_max_age (users : List User) (h : users ≠ []) :
    ∃ pre r post, users = pre ++ r :: post ∧ oldestOf users = some r ∧
      (∀ u ∈ users, u.age ≤ r.age) ∧ (∀ u ∈ post, u.age < r.age) := by
  obtain ⟨pre, r, post, heq, hr, hpre, hpost⟩ := oldestOf_split users h
  refine ⟨pre, r, post, heq, hr, ?_, hpost⟩
  intro u hu
  rw [heq] at hu
  rcases List.mem_append.mp hu with hu | hu
  · exact hpre u hu
  · rcases List.mem_cons.mp hu with hu | hu
    · rw [hu]
    · exact le_of_lt (hpost u hu)

/-- Instance of C16 on two records of equal age. -/
theorem oldestOf_is_last_of_max_age_witness :
    tiedUsers ≠ [] ∧
    ∃ pre r post, tiedUsers = pre ++ r :: post ∧ oldestOf tiedUsers = some r ∧
      (∀ u ∈ tiedUsers, u.age ≤ r.age) ∧ (∀ u ∈ post, u.age < r.age) :=
  ⟨by decide, oldestOf_is_last_of_max_age tiedUsers (by decide)⟩

/-- Raising the minimum age never raises the count of adults. -/
theorem adultsOf_antitone (users : List User) (m n : Int) (hmn : m ≤ n) :
    adultsOf n users ≤ adultsOf m users := by
  refine List.Sublist.length_le (List.monotone_filter_right users ?_)
  intro u hu
  simp only [ge_iff_le, decide_eq_true_eq] at hu ⊢
  exact le_trans hmn hu

/-- C17: for every `minAge` in 18..25 (and every target country) the expected
`adults_count` that `validate` computes is 3 when `minAge ≤ 20` and 2 when `minAge ≥ 21`,
and it does not increase when the minimum age grows. -/
theorem adults_three_then_two (minAge : Int) (targetCountry : String)
    (hlo : 18 ≤ minAge) (hhi : minAge ≤ 25) :
    (minAge ≤ 20 → adults minAge targetCountry = 3) ∧
      (21 ≤ minAge → adults minAge targetCountry = 2) ∧
      (∀ m : Int, minAge ≤ m → adults m targetCountry ≤ adults minAge targetCountry) := by
  refine ⟨?_, ?_, ?_⟩
  · interval_cases minAge <;> simp [adults, adultsOf, testData, List.filter]
  · interval_cases minAge <;> simp [adults, adultsOf, testData, List.filter]
  · intro m hm
    exact adultsOf_antitone (testData targetCountry) minAge m hm

/-- Instance of C17 at `minAge = 21`. -/
theorem adults_three_then_two_witness :
    (18 : Int) ≤ 21 ∧ (21 : Int) ≤ 25 ∧ adults 21 "India" = 2 :=
  ⟨by decide, by decide,
    (adults_three_then_two 21 "India" (by decide) (by decide)).2.1 (by decide)⟩

/-- C18: the expected `target_country_count` that `validate` computes is 2 for
`"India"`, `"USA"` and `"UK"` (Charlie plus Alice, Bob or Dave respectively) and 1 for
`"Canada"` (Charlie only). -/
theorem targetCount_by_country :
    targetCount "India" = 2 ∧ targetCount "USA" = 2 ∧ targetCount "UK" = 2 ∧
      targetCount "Canada" = 1 ∧
      ((testData "India").filter (fun u => u.country == "India")).map (fun u => u.name)
        = ["Alice", "Charlie"] ∧
      ((testData "USA").filter (fun u => u.country == "USA")).map (fun u => u.name)
        = ["Bob", "Charlie"] ∧
      ((testData "UK").filter (fun u => u.country == "UK")).map (fun u => u.name)
        = ["Charlie", "Dave"] ∧
      ((testData "Canada").filter (fun u => u.country == "Canada")).map (fun u => u.name)
        = ["Charlie"] := by
  decide

/-! ## What the outcome depends on -/

/-- The five checks read the body through the five property reads only. -/
theorem runChecks_congr (coerce : Coerce) (validEmails : Nat) (avgAge : ℚ)
    (targetCount : Nat) (oldest : String) (adults : Nat) (json1 json2 : JsVal)
    (hagree : ∀ name ∈ fieldNames, getProp json1 name = getProp json2 name) :
    runChecks coerce validEmails avgAge targetCount oldest adults json1 =
      runChecks coerce validEmails avgAge targetCount oldest adults json2 := by
  have e1 := hagree "valid_email_count" (by simp [fieldNames])
  have e2 := hagree "average_age" (by simp [fieldNames])
  have e3 := hagree "target_country_count" (by simp [fieldNames])
  have e4 := hagree "oldest_user" (by simp [fieldNames])
  have e5 := hagree "adults_count" (by simp [fieldNames])
  simp only [runChecks, e1, e2, e3, e4, e5]

/-- A member under another key does not change what a key looks up. -/
theorem lookupMember_insert (name k : String) (v : JsVal) (hk : k ≠ name)
    (a b : List (String × JsVal)) :
    lookupMember name (a ++ (k, v) :: b) = lookupMember name (a ++ b) := by
  induction a with
  | nil =>
    simp only [List.nil_append, lookupMember]
    cases lookupMember name b with
    | some w => rfl
    | none => simp [hk]
  | cons x xs ih =>
    obtain ⟨k0, v0⟩ := x
    rw [List.cons_append, List.cons_append, lookupMember, lookupMember, ih]

/-- Two HTTP-200 answers whose parsed bodies agree on the five property reads end in the
same run. -/
theorem validate_congr (coerce : Coerce) (minAge : Int) (targetCountry : String)
    (net1 net2 : Net) (url : String) (r1 r2 : Response) (json1 json2 : JsVal)
    (hnet1 : net1 (mkRequest targetCountry url) = .resolved r1)
    (hnet2 : net2 (mkRequest targetCountry url) = .resolved r2)
    (hs1 : r1.status = 200) (hs2 : r2.status = 200)
    (hj1 : r1.json = some json1) (hj2 : r2.json = some json2)
    (hagree : ∀ name ∈ fieldNames, getProp json1 name = getProp json2 name) :
    validate coerce minAge targetCountry net1 url =
      validate coerce minAge targetCountry net2 url := by
  rw [validate_resolved coerce minAge targetCountry net1 url r1 hnet1,
    validate_resolved coerce minAge targetCountry net2 url r2 hnet2]
  simp only [afterFetch, hs1, hs2, hj1, hj2, ne_eq, not_true_eq_false, if_false]
  rw [runChecks_congr coerce _ _ _ _ _ json1 json2 hagree]

/-- C19: the outcome of `validate` depends on an HTTP-200 response only through the five
named fields: for any two HTTP-200 answers whose parsed bodies agree on
`valid_email_count`, `average_age`, `target_country_count`, `oldest_user` and
`adults_count`, `validate` gives the same result (the same true, or the same error); in
particular a member under any other key, wherever it stands in the body, neither causes
nor prevents a failure. -/
theorem validate_depends_on_five_fields (coerce : Coerce) (minAge : Int)
    (targetCountry : String) (net1 net2 : Net) (url : String) (r1 r2 : Response)
    (json1 json2 : JsVal)
    (hnet1 : net1 (mkRequest targetCountry url) = .resolved r1)
    (hnet2 : net2 (mkRequest targetCountry url) = .resolved r2)
    (hs1 : r1.status = 200) (hs2 : r2.status = 200)
    (hj1 : r1.json = some json1) (hj2 : r2.json = some json2)
    (hagree : ∀ name ∈ fieldNames, getProp json1 name = getProp json2 name) :
    (validate coerce minAge targetCountry net1 url).outcome =
        (validate coerce minAge targetCountry net2 url).outcome ∧
      (∀ (a b : List (String × JsVal)) (k : String) (v : JsVal), k ∉ fieldNames →
        (validate coerce minAge targetCountry
            (answering ⟨200, some (.obj (a ++ (k, v) :: b))⟩) url).outcome =
          (validate coerce minAge targetCountry
            (answering ⟨200, some (.obj (a ++ b))⟩) url).outcome) := by
  constructor
  · rw [validate_congr coerce minAge targetCountry net1 net2 url r1 r2 json1 json2
      hnet1 hnet2 hs1 hs2 hj1 hj2 hagree]
  · intro a b k v hk
    rw [validate_congr coerce minAge targetCountry
      (answering ⟨200, some (.obj (a ++ (k, v) :: b))⟩)
      (answering ⟨200, some (.obj (a ++ b))⟩) url _ _ _ _ rfl rfl rfl rfl rfl rfl]
    intro name hname
    have hne : k ≠ name := fun e => hk (e ▸ hname)
    simp only [getProp, lookupMember_insert name k v hne a b]

/-- Instance of C19: an answer wrong in `oldest_user` and `adults_count`, with and
without two more members, fails with the same message. -/
theorem validate_depends_on_five_fields_witness :
    (validate coerceNaN 18 "USA" (answering ⟨200, some bodyWrongQ4Q5Extra⟩)
      "http://localhost:8000").outcome =
    (validate coerceNaN 18 "USA" (answering ⟨200, some bodyWrongQ4Q5⟩)
      "http://localhost:8000").outcome :=
  (validate_depends_on_five_fields coerceNaN 18 "USA"
    (answering ⟨200, some bodyWrongQ4Q5Extra⟩) (answering ⟨200, some bodyWrongQ4Q5⟩)
    "http://localhost:8000" ⟨200, some bodyWrongQ4Q5Extra⟩ ⟨200, some bodyWrongQ4Q5⟩
    bodyWrongQ4Q5Extra bodyWrongQ4Q5 rfl rfl rfl rfl rfl rfl
    (by
      intro name hname
      simp only [fieldNames, List.mem_cons, List.mem_singleton, List.not_mem_nil,
        or_false] at hname
      rcases hname with h | h | h | h | h <;> subst h <;> rfl)).1

end UserAnalytics
